import Mathlib

/-!
Shallow embedding of the wookie crate: single-future stepping executors that
instrument waker traffic. `Wookie` (src/wookie.rs) keeps its counter block
behind an Arc; `Local` (src/local.rs) keeps it inline; src/lib.rs holds an
older executor with a single u32 wake counter. Machine integers u16/u32 are
modelled as Nat with explicit reduction modulo 2^16 / 2^32 where the source
wraps (the counters are documented as allowed to overflow).
-/

/-- Modulus of the u16 counters of the instrumented wakers. -/
def U16MOD : Nat := 65536

/-- Modulus of the u32 wake counter of the executor in src/lib.rs. -/
def U32MOD : Nat := 4294967296

/-- One of the four slots of a core::task::RawWakerVTable, as invoked by a
future on the waker it is polled with (or on any handle cloned from it). -/
inductive WakerOp : Type
  | clone
  | wake
  | wake_by_ref
  | drop
deriving Repr, DecidableEq

/-- core::task::Poll. -/
inductive Poll (α : Type) : Type
  | Ready (value : α)
  | Pending
deriving Repr, DecidableEq

/-- An opaque future, modelled as a state machine: polling it in state s
performs a finite list of waker operations (against the signal every handle
of the harness is bound to), steps to a successor state, and returns a
`Poll`. The harness never inspects the state. -/
structure Future (σ α : Type) : Type where
  poll : σ → List WakerOp × σ × Poll α

/-- Modelled from the spec: the crate-root file defining `Stats` is not among
the sources; per the spec it is a value type holding a point-in-time copy of
the three counters. Its three fields are also visible in the literal
constructions in src/wookie.rs and src/local.rs. -/
structure Stats where
  cloned : Nat
  dropped : Nat
  woken : Nat
deriving Repr, DecidableEq

/-- A stepping operation a caller can invoke on an instrumented harness; the
fuel on poll_while_woken bounds the embedding of the source's unbounded loop. -/
inductive HarnessOp : Type
  | poll
  | poll_while_woken (fuel : Nat)
deriving Repr, DecidableEq

namespace WookieMod

variable {σ α : Type}

/-- struct Wakey of src/wookie.rs: three AtomicU16 counters. -/
structure Wakey where
  cloned : Nat
  dropped : Nat
  woken : Nat
deriving Repr, DecidableEq

/-- cloned.fetch_add(1, Relaxed): wrapping u16 increment. -/
def Wakey.bump_cloned (w : Wakey) : Wakey := { w with cloned := (w.cloned + 1) % U16MOD }

/-- woken.fetch_add(1, Relaxed): wrapping u16 increment. -/
def Wakey.bump_woken (w : Wakey) : Wakey := { w with woken := (w.woken + 1) % U16MOD }

/-- dropped.fetch_add(1, Relaxed): wrapping u16 increment. -/
def Wakey.bump_dropped (w : Wakey) : Wakey := { w with dropped := (w.dropped + 1) % U16MOD }

/-- vtable do_clone: bump cloned, Arc::increment_strong_count, return a new
raw waker on the same Wakey. -/
def do_clone (w : Wakey) (rc : Nat) : Wakey × Nat := (w.bump_cloned, rc + 1)

/-- vtable do_wake: Arc::from_raw takes the reference (strong count -1 when it
is released at end of scope); bump woken, then bump dropped. -/
def do_wake (w : Wakey) (rc : Nat) : Wakey × Nat := (w.bump_woken.bump_dropped, rc - 1)

/-- vtable do_wake_by_ref: the Arc is wrapped in ManuallyDrop, so the strong
count is untouched; bump woken only. -/
def do_wake_by_ref (w : Wakey) (rc : Nat) : Wakey × Nat := (w.bump_woken, rc)

/-- vtable do_drop: Arc::from_raw and release (strong count -1); bump dropped. -/
def do_drop (w : Wakey) (rc : Nat) : Wakey × Nat := (w.bump_dropped, rc - 1)

/-- dispatch one vtable call on the signal state (counters, Arc strong count). -/
def applyOp (s : Wakey × Nat) : WakerOp → Wakey × Nat
  | WakerOp.clone => do_clone s.1 s.2
  | WakerOp.wake => do_wake s.1 s.2
  | WakerOp.wake_by_ref => do_wake_by_ref s.1 s.2
  | WakerOp.drop => do_drop s.1 s.2

/-- the cumulative effect on the signal of a sequence of vtable calls. -/
def applyOps (s : Wakey × Nat) (ops : List WakerOp) : Wakey × Nat := ops.foldl applyOp s

/-- struct Wookie<F> of src/wookie.rs: the Arc'd Wakey (rc is the Arc strong
count, 1 at creation: the harness's own reference; the raw ptr field carries
no extra state) and the future, whose machine state is σ. -/
structure Wookie (σ : Type) where
  wakey : Wakey
  rc : Nat
  future : σ
deriving Repr, DecidableEq

/-- Wookie::new: a freshly allocated zero-initialised Wakey behind one Arc. -/
def Wookie.new (s : σ) : Wookie σ := ⟨⟨0, 0, 0⟩, 1, s⟩

/-- woken(): load of the woken counter. -/
def Wookie.woken (h : Wookie σ) : Nat := h.wakey.woken

/-- cloned(): load of the cloned counter. -/
def Wookie.cloned (h : Wookie σ) : Nat := h.wakey.cloned

/-- dropped(): load of the dropped counter. -/
def Wookie.dropped (h : Wookie σ) : Nat := h.wakey.dropped

/-- live(): `cloned - dropped` as wrapping u16 subtraction, written on Nat as
(cloned + 2^16 - dropped) % 2^16. -/
def Wookie.live (h : Wookie σ) : Nat := (h.wakey.cloned + U16MOD - h.wakey.dropped) % U16MOD

/-- stats(): point-in-time copy of the three counters. -/
def Wookie.stats (h : Wookie σ) : Stats := ⟨h.wakey.cloned, h.wakey.dropped, h.wakey.woken⟩

/-- poll(): builds one waker straight from the raw pointer (no clone bump, no
strong-count change) wrapped in ManuallyDrop (its release is suppressed: no
drop bump), polls the future once with it. The signal changes exactly by the
vtable calls the future itself performed. -/
def Wookie.poll (t : Future σ α) (h : Wookie σ) : Wookie σ × Poll α :=
  let r := t.poll h.future
  let s := applyOps (h.wakey, h.rc) r.1
  (⟨s.1, s.2, r.2.1⟩, r.2.2)

/-- loop of poll_while_woken; the Nat fuel makes the source's unbounded loop a
total function: a `none` result means the loop was still running after `fuel`
polls. The second argument is the local variable `woken` recording the count. -/
def Wookie.poll_while_woken_aux (t : Future σ α) : Nat → Nat → Wookie σ → Wookie σ × Option (Poll α)
  | 0, _, h => (h, none)
  | fuel + 1, woken, h =>
    match Wookie.poll t h with
    | (h2, Poll.Ready r) => (h2, some (Poll.Ready r))
    | (h2, Poll.Pending) =>
      if h2.wakey.woken = woken then (h2, some Poll.Pending)
      else Wookie.poll_while_woken_aux t fuel h2.wakey.woken h2

/-- poll_while_woken(): records the current woken count and enters the loop. -/
def Wookie.poll_while_woken (t : Future σ α) (fuel : Nat) (h : Wookie σ) : Wookie σ × Option (Poll α) :=
  Wookie.poll_while_woken_aux t fuel (Wookie.woken h) h

/-- run a sequence of stepping operations, recording after each one its poll
result and a Stats read; also returns the final harness. -/
def Wookie.run (t : Future σ α) : List HarnessOp → Wookie σ → List (Option (Poll α) × Stats) × Wookie σ
  | [], h => ([], h)
  | HarnessOp.poll :: ops, h =>
    let r := Wookie.poll t h
    let k := Wookie.run t ops r.1
    ((some r.2, Wookie.stats r.1) :: k.1, k.2)
  | HarnessOp.poll_while_woken fuel :: ops, h =>
    let r := Wookie.poll_while_woken t fuel h
    let k := Wookie.run t ops r.1
    ((r.2, Wookie.stats r.1) :: k.1, k.2)

end WookieMod

namespace LocalMod

variable {σ α : Type}

/-- struct Wakey of src/local.rs: three Cell<u16> counters (single-owner). -/
structure Wakey where
  cloned : Nat
  dropped : Nat
  woken : Nat
deriving Repr, DecidableEq

/-- cloned.set(cloned.get() + 1): wrapping u16 increment. -/
def Wakey.bump_cloned (w : Wakey) : Wakey := { w with cloned := (w.cloned + 1) % U16MOD }

/-- woken.set(woken.get() + 1): wrapping u16 increment. -/
def Wakey.bump_woken (w : Wakey) : Wakey := { w with woken := (w.woken + 1) % U16MOD }

/-- dropped.set(dropped.get() + 1): wrapping u16 increment. -/
def Wakey.bump_dropped (w : Wakey) : Wakey := { w with dropped := (w.dropped + 1) % U16MOD }

/-- vtable do_clone: bump cloned, return a new raw waker on the same Wakey
(no ownership bookkeeping in this variant). -/
def do_clone (w : Wakey) : Wakey := w.bump_cloned

/-- vtable do_wake_by_ref: bump woken. -/
def do_wake_by_ref (w : Wakey) : Wakey := w.bump_woken

/-- vtable do_drop: bump dropped. -/
def do_drop (w : Wakey) : Wakey := w.bump_dropped

/-- vtable do_wake: do_wake_by_ref then do_drop. -/
def do_wake (w : Wakey) : Wakey := do_drop (do_wake_by_ref w)

/-- dispatch one vtable call on the inline signal. -/
def applyOp (w : Wakey) : WakerOp → Wakey
  | WakerOp.clone => do_clone w
  | WakerOp.wake => do_wake w
  | WakerOp.wake_by_ref => do_wake_by_ref w
  | WakerOp.drop => do_drop w

/-- the cumulative effect on the signal of a sequence of vtable calls. -/
def applyOps (w : Wakey) (ops : List WakerOp) : Wakey := ops.foldl applyOp w

/-- struct Local<F> of src/local.rs: the Wakey stored inline and the future,
whose machine state is σ. -/
structure Local (σ : Type) where
  wakey : Wakey
  future : σ
deriving Repr, DecidableEq

/-- Local::new: a default (all-zero) Wakey inline. -/
def Local.new (s : σ) : Local σ := ⟨⟨0, 0, 0⟩, s⟩

/-- woken(): read of the woken counter. -/
def Local.woken (h : Local σ) : Nat := h.wakey.woken

/-- cloned(): read of the cloned counter. -/
def Local.cloned (h : Local σ) : Nat := h.wakey.cloned

/-- dropped(): read of the dropped counter. -/
def Local.dropped (h : Local σ) : Nat := h.wakey.dropped

/-- live(): `cloned - dropped` as wrapping u16 subtraction, written on Nat as
(cloned + 2^16 - dropped) % 2^16. -/
def Local.live (h : Local σ) : Nat := (h.wakey.cloned + U16MOD - h.wakey.dropped) % U16MOD

/-- stats(): point-in-time copy of the three counters. -/
def Local.stats (h : Local σ) : Stats := ⟨h.wakey.cloned, h.wakey.dropped, h.wakey.woken⟩

/-- poll(): builds one waker straight from the address of the inline Wakey (no
clone bump) wrapped in ManuallyDrop (its release is suppressed: no drop bump),
polls the future once with it. The signal changes exactly by the vtable calls
the future itself performed. -/
def Local.poll (t : Future σ α) (h : Local σ) : Local σ × Poll α :=
  let r := t.poll h.future
  (⟨applyOps h.wakey r.1, r.2.1⟩, r.2.2)

/-- loop of poll_while_woken; the Nat fuel makes the source's unbounded loop a
total function: a `none` result means the loop was still running after `fuel`
polls. The second argument is the local variable `woken` recording the count. -/
def Local.poll_while_woken_aux (t : Future σ α) : Nat → Nat → Local σ → Local σ × Option (Poll α)
  | 0, _, h => (h, none)
  | fuel + 1, woken, h =>
    match Local.poll t h with
    | (h2, Poll.Ready r) => (h2, some (Poll.Ready r))
    | (h2, Poll.Pending) =>
      if h2.wakey.woken = woken then (h2, some Poll.Pending)
      else Local.poll_while_woken_aux t fuel h2.wakey.woken h2

/-- poll_while_woken(): records the current woken count and enters the loop. -/
def Local.poll_while_woken (t : Future σ α) (fuel : Nat) (h : Local σ) : Local σ × Option (Poll α) :=
  Local.poll_while_woken_aux t fuel (Local.woken h) h

/-- run a sequence of stepping operations, recording after each one its poll
result and a Stats read; also returns the final harness. -/
def Local.run (t : Future σ α) : List HarnessOp → Local σ → List (Option (Poll α) × Stats) × Local σ
  | [], h => ([], h)
  | HarnessOp.poll :: ops, h =>
    let r := Local.poll t h
    let k := Local.run t ops r.1
    ((some r.2, Local.stats r.1) :: k.1, k.2)
  | HarnessOp.poll_while_woken fuel :: ops, h =>
    let r := Local.poll_while_woken t fuel h
    let k := Local.run t ops r.1
    ((r.2, Local.stats r.1) :: k.1, k.2)

end LocalMod

namespace LibW

variable {σ α : Type}

/-- the waker vtable of src/lib.rs acts on a single u32 counter: clone copies
the raw waker unchanged, wake and wake-by-ref add 1 to the counter, drop is a
no-op. -/
def applyOp (c : Nat) : WakerOp → Nat
  | WakerOp.clone => c
  | WakerOp.wake => (c + 1) % U32MOD
  | WakerOp.wake_by_ref => (c + 1) % U32MOD
  | WakerOp.drop => c

/-- the cumulative effect on the counter of a sequence of vtable calls. -/
def applyOps (c : Nat) (ops : List WakerOp) : Nat := ops.foldl applyOp c

/-- struct Wookie of src/lib.rs: the u32 wake counter (the two pointer fields
only make the counter reachable from wakers and carry no extra state). -/
structure Wookie where
  counter : Nat
deriving Repr, DecidableEq

/-- Wookie::new: counter starts at 0. -/
def Wookie.new : Wookie := ⟨0⟩

/-- count(): read of the counter. -/
def Wookie.count (x : Wookie) : Nat := x.counter

/-- poll(): polls the provided future once with a waker on the counter. The
future is external to this harness, so its state rides along explicitly. -/
def Wookie.poll (t : Future σ α) (x : Wookie) (s : σ) : (Wookie × σ) × Poll α :=
  let r := t.poll s
  ((⟨applyOps x.counter r.1⟩, r.2.1), r.2.2)

/-- poll_while_woken(): reads the counter at the top of each iteration, polls
once, returns Ready results, returns Pending when the counter did not move,
otherwise loops. Fuel embeds the unbounded loop; none means fuel ran out. -/
def Wookie.poll_while_woken (t : Future σ α) : Nat → Wookie → σ → (Wookie × σ) × Option (Poll α)
  | 0, x, s => ((x, s), none)
  | fuel + 1, x, s =>
    let count := x.counter
    match Wookie.poll t x s with
    | (xs, Poll.Ready r) => (xs, some (Poll.Ready r))
    | (xs, Poll.Pending) =>
      if xs.1.counter = count then (xs, some Poll.Pending)
      else Wookie.poll_while_woken t fuel xs.1 xs.2

end LibW

/-- future that completes immediately returning true, without touching the
waker; its state counts its polls. -/
def readyNow : Future Nat Bool := ⟨fun s => ([], s + 1, Poll.Ready true)⟩

/-- future that never wakes and never completes; its state counts its polls. -/
def neverReady : Future Nat Bool := ⟨fun s => ([], s + 1, Poll.Pending)⟩

/-- future that wakes itself by reference on every poll and never completes;
its state counts its polls. -/
def selfWaking : Future Nat Bool := ⟨fun s => ([WakerOp.wake_by_ref], s + 1, Poll.Pending)⟩

/-- future that wakes itself (by reference) on each of its first `s.1` polls,
then completes with true; state = (remaining wakes, polls so far). -/
def wakesThenReady : Future (Nat × Nat) Bool :=
  ⟨fun s => if s.1 = 0 then ([], (0, s.2 + 1), Poll.Ready true)
            else ([WakerOp.wake_by_ref], (s.1 - 1, s.2 + 1), Poll.Pending)⟩

/-- future that clones the provided waker once, stores the clone, and returns
not-ready; its state counts its polls. -/
def clonesOnce : Future Nat Bool := ⟨fun s => ([WakerOp.clone], s + 1, Poll.Pending)⟩

/-- malformed future that drops a handle it never cloned and returns
not-ready; its state counts its polls. -/
def dropsUncloned : Future Nat Bool := ⟨fun s => ([WakerOp.drop], s + 1, Poll.Pending)⟩

/-- forget the Arc strong count: a heap-variant Wakey seen as an inline one. -/
def WookieMod.Wakey.toLocal (w : WookieMod.Wakey) : LocalMod.Wakey :=
  ⟨w.cloned, w.dropped, w.woken⟩

/-- forget the Arc strong count: a heap-backed harness seen as a stack one. -/
def WookieMod.Wookie.toLocal {σ : Type} (h : WookieMod.Wookie σ) : LocalMod.Local σ :=
  ⟨h.wakey.toLocal, h.future⟩

/-- each vtable call has the same effect on the three counters in both
instrumented variants. -/
theorem applyOp_toLocal (w : WookieMod.Wakey) (rc : Nat) (op : WakerOp) :
    ((WookieMod.applyOp (w, rc) op).1).toLocal = LocalMod.applyOp w.toLocal op := by
  cases op <;> rfl

/-- sequences of vtable calls have the same counter effect in both variants. -/
theorem applyOps_toLocal (ops : List WakerOp) : ∀ (w : WookieMod.Wakey) (rc : Nat),
    ((WookieMod.applyOps (w, rc) ops).1).toLocal = LocalMod.applyOps w.toLocal ops := by
  induction ops with
  | nil => intro w rc; rfl
  | cons op ops ih =>
    intro w rc
    have h1 : WookieMod.applyOps (w, rc) (op :: ops)
        = WookieMod.applyOps (WookieMod.applyOp (w, rc) op) ops := rfl
    have h2 : LocalMod.applyOps w.toLocal (op :: ops)
        = LocalMod.applyOps (LocalMod.applyOp w.toLocal op) ops := rfl
    rw [h1, h2, ← applyOp_toLocal w rc op]
    have := ih (WookieMod.applyOp (w, rc) op).1 (WookieMod.applyOp (w, rc) op).2
    simpa using this

/-- polling once agrees between the two instrumented variants: same poll
result, and the resulting harnesses are related by forgetting the strong
count. -/
theorem poll_toLocal {σ α : Type} (t : Future σ α) (h : WookieMod.Wookie σ) :
    LocalMod.Local.poll t h.toLocal
      = ((WookieMod.Wookie.poll t h).1.toLocal, (WookieMod.Wookie.poll t h).2) := by
  unfold LocalMod.Local.poll WookieMod.Wookie.poll
  simp [WookieMod.Wookie.toLocal, applyOps_toLocal (t.poll h.future).1 h.wakey h.rc]

/-- the poll-while-woken loops agree between the two instrumented variants. -/
theorem pww_aux_toLocal {σ α : Type} (t : Future σ α) : ∀ (fuel woken : Nat) (h : WookieMod.Wookie σ),
    LocalMod.Local.poll_while_woken_aux t fuel woken h.toLocal
      = ((WookieMod.Wookie.poll_while_woken_aux t fuel woken h).1.toLocal,
         (WookieMod.Wookie.poll_while_woken_aux t fuel woken h).2) := by
  intro fuel
  induction fuel with
  | zero => intro woken h; rfl
  | succ fuel ih =>
    intro woken h
    rw [LocalMod.Local.poll_while_woken_aux, WookieMod.Wookie.poll_while_woken_aux,
        poll_toLocal t h]
    rcases hp : WookieMod.Wookie.poll t h with ⟨h2, r⟩
    cases r with
    | Ready v => rfl
    | Pending =>
      show (if h2.toLocal.wakey.woken = woken then _ else _) = _
      have hw : h2.toLocal.wakey.woken = h2.wakey.woken := rfl
      rw [hw]
      by_cases hc : h2.wakey.woken = woken
      · simp [hc]
      · simp [hc, ih h2.wakey.woken h2]

/-- poll_while_woken agrees between the two instrumented variants. -/
theorem pww_toLocal {σ α : Type} (t : Future σ α) (fuel : Nat) (h : WookieMod.Wookie σ) :
    LocalMod.Local.poll_while_woken t fuel h.toLocal
      = ((WookieMod.Wookie.poll_while_woken t fuel h).1.toLocal,
         (WookieMod.Wookie.poll_while_woken t fuel h).2) := by
  unfold LocalMod.Local.poll_while_woken WookieMod.Wookie.poll_while_woken
  exact pww_aux_toLocal t fuel h.wakey.woken h

/-- a Stats read agrees between the two instrumented variants. -/
theorem stats_toLocal {σ : Type} (h : WookieMod.Wookie σ) :
    LocalMod.Local.stats h.toLocal = WookieMod.Wookie.stats h := rfl

/-- full operation sequences produce identical observation traces in the two
instrumented variants, and final harnesses related by forgetting the strong
count. -/
theorem run_toLocal {σ α : Type} (t : Future σ α) : ∀ (ops : List HarnessOp) (h : WookieMod.Wookie σ),
    LocalMod.Local.run t ops h.toLocal
      = ((WookieMod.Wookie.run t ops h).1, (WookieMod.Wookie.run t ops h).2.toLocal) := by
  intro ops
  induction ops with
  | nil => intro h; rfl
  | cons op ops ih =>
    intro h
    cases op with
    | poll =>
      rw [LocalMod.Local.run, WookieMod.Wookie.run, poll_toLocal t h]
      simp only [ih (WookieMod.Wookie.poll t h).1, stats_toLocal]
    | poll_while_woken fuel =>
      rw [LocalMod.Local.run, WookieMod.Wookie.run, pww_toLocal t fuel h]
      simp only [ih (WookieMod.Wookie.poll_while_woken t fuel h).1, stats_toLocal]

/-- does this vtable call bump the cloned counter. -/
def isCloneOp : WakerOp → Bool
  | WakerOp.clone => true
  | _ => false

/-- does this vtable call bump the dropped counter. -/
def bumpsDroppedOp : WakerOp → Bool
  | WakerOp.wake => true
  | WakerOp.drop => true
  | _ => false

/-- does this vtable call bump the woken counter. -/
def bumpsWokenOp : WakerOp → Bool
  | WakerOp.wake => true
  | WakerOp.wake_by_ref => true
  | _ => false

/-- number of calls in a sequence satisfying p. -/
def countOps (p : WakerOp → Bool) (ops : List WakerOp) : Nat := (ops.filter p).length

theorem countOps_nil (p : WakerOp → Bool) : countOps p [] = 0 := rfl

theorem countOps_cons (p : WakerOp → Bool) (op : WakerOp) (ops : List WakerOp) :
    countOps p (op :: ops) = (if p op then 1 else 0) + countOps p ops := by
  by_cases h : p op <;> simp [countOps, List.filter_cons, h, Nat.add_comm]

/-- the bumps of every vtable call keep the counters inside u16 range. -/
theorem LocalMod.applyOp_lt (w : LocalMod.Wakey) (op : WakerOp)
    (hc : w.cloned < U16MOD) (hd : w.dropped < U16MOD) (hw : w.woken < U16MOD) :
    (LocalMod.applyOp w op).cloned < U16MOD ∧ (LocalMod.applyOp w op).dropped < U16MOD ∧
      (LocalMod.applyOp w op).woken < U16MOD := by
  have hpos : 0 < U16MOD := by norm_num [U16MOD]
  cases op <;>
    simp [LocalMod.applyOp, LocalMod.do_clone, LocalMod.do_wake, LocalMod.do_wake_by_ref,
      LocalMod.do_drop, LocalMod.Wakey.bump_cloned, LocalMod.Wakey.bump_woken,
      LocalMod.Wakey.bump_dropped, Nat.mod_lt, hpos, hc, hd, hw]

/-- counter arithmetic of the stack variant: a sequence of vtable calls adds
exactly its number of clone / drop-like / wake-like calls to the respective
counter, modulo 2^16. -/
theorem LocalMod.applyOps_count_stack (ops : List WakerOp) : ∀ (w : LocalMod.Wakey),
    w.cloned < U16MOD → w.dropped < U16MOD → w.woken < U16MOD →
    (LocalMod.applyOps w ops).cloned = (w.cloned + countOps isCloneOp ops) % U16MOD ∧
    (LocalMod.applyOps w ops).dropped = (w.dropped + countOps bumpsDroppedOp ops) % U16MOD ∧
    (LocalMod.applyOps w ops).woken = (w.woken + countOps bumpsWokenOp ops) % U16MOD := by
  induction ops with
  | nil =>
    intro w hc hd hw
    exact ⟨(Nat.mod_eq_of_lt hc).symm, (Nat.mod_eq_of_lt hd).symm, (Nat.mod_eq_of_lt hw).symm⟩
  | cons op ops ih =>
    intro w hc hd hw
    have hstep : LocalMod.applyOps w (op :: ops) = LocalMod.applyOps (LocalMod.applyOp w op) ops := rfl
    obtain ⟨hc2, hd2, hw2⟩ := LocalMod.applyOp_lt w op hc hd hw
    obtain ⟨ic, id2, iw⟩ := ih (LocalMod.applyOp w op) hc2 hd2 hw2
    rw [hstep]
    refine ⟨?_, ?_, ?_⟩
    · rw [ic, countOps_cons]
      cases op <;>
        simp [LocalMod.applyOp, LocalMod.do_clone, LocalMod.do_wake, LocalMod.do_wake_by_ref,
          LocalMod.do_drop, LocalMod.Wakey.bump_cloned, LocalMod.Wakey.bump_woken,
          LocalMod.Wakey.bump_dropped, isCloneOp, Nat.mod_add_mod, Nat.add_assoc, Nat.add_comm,
          Nat.add_left_comm]
    · rw [id2, countOps_cons]
      cases op <;>
        simp [LocalMod.applyOp, LocalMod.do_clone, LocalMod.do_wake, LocalMod.do_wake_by_ref,
          LocalMod.do_drop, LocalMod.Wakey.bump_cloned, LocalMod.Wakey.bump_woken,
          LocalMod.Wakey.bump_dropped, bumpsDroppedOp, Nat.mod_add_mod, Nat.add_assoc,
          Nat.add_comm, Nat.add_left_comm]
    · rw [iw, countOps_cons]
      cases op <;>
        simp [LocalMod.applyOp, LocalMod.do_clone, LocalMod.do_wake, LocalMod.do_wake_by_ref,
          LocalMod.do_drop, LocalMod.Wakey.bump_cloned, LocalMod.Wakey.bump_woken,
          LocalMod.Wakey.bump_dropped, bumpsWokenOp, Nat.mod_add_mod, Nat.add_assoc,
          Nat.add_comm, Nat.add_left_comm]

/-- counter arithmetic of the heap variant, via the variant equivalence. -/
theorem WookieMod.applyOps_count_heap (ops : List WakerOp) (w : WookieMod.Wakey) (rc : Nat)
    (hc : w.cloned < U16MOD) (hd : w.dropped < U16MOD) (hw : w.woken < U16MOD) :
    (WookieMod.applyOps (w, rc) ops).1.cloned = (w.cloned + countOps isCloneOp ops) % U16MOD ∧
    (WookieMod.applyOps (w, rc) ops).1.dropped = (w.dropped + countOps bumpsDroppedOp ops) % U16MOD ∧
    (WookieMod.applyOps (w, rc) ops).1.woken = (w.woken + countOps bumpsWokenOp ops) % U16MOD := by
  have hsim := applyOps_toLocal ops w rc
  have hcount := LocalMod.applyOps_count_stack ops w.toLocal hc hd hw
  rw [← hsim] at hcount
  exact hcount

theorem WookieMod.applyOps_append_heap (s : WookieMod.Wakey × Nat) (a b : List WakerOp) :
    WookieMod.applyOps s (a ++ b) = WookieMod.applyOps (WookieMod.applyOps s a) b := by
  simp [WookieMod.applyOps, List.foldl_append]

theorem LocalMod.applyOps_append_stack (w : LocalMod.Wakey) (a b : List WakerOp) :
    LocalMod.applyOps w (a ++ b) = LocalMod.applyOps (LocalMod.applyOps w a) b := by
  simp [LocalMod.applyOps, List.foldl_append]

/-- a single poll changes the heap-variant signal exactly by the vtable calls
the future performed. -/
theorem WookieMod.poll_signal_heap {σ α : Type} (t : Future σ α) (h : WookieMod.Wookie σ) :
    ((WookieMod.Wookie.poll t h).1.wakey, (WookieMod.Wookie.poll t h).1.rc)
      = WookieMod.applyOps (h.wakey, h.rc) (t.poll h.future).1 := by
  unfold WookieMod.Wookie.poll
  simp

/-- a single poll changes the stack-variant signal exactly by the vtable calls
the future performed. -/
theorem LocalMod.poll_signal_stack {σ α : Type} (t : Future σ α) (h : LocalMod.Local σ) :
    (LocalMod.Local.poll t h).1.wakey = LocalMod.applyOps h.wakey (t.poll h.future).1 := rfl

/-- the poll-while-woken loop only ever moves the heap-variant signal by some
sequence of vtable calls performed by the future. -/
theorem WookieMod.pww_aux_signal_heap {σ α : Type} (t : Future σ α) : ∀ (fuel woken : Nat) (h : WookieMod.Wookie σ),
    ∃ ops, ((WookieMod.Wookie.poll_while_woken_aux t fuel woken h).1.wakey,
            (WookieMod.Wookie.poll_while_woken_aux t fuel woken h).1.rc)
          = WookieMod.applyOps (h.wakey, h.rc) ops := by
  intro fuel
  induction fuel with
  | zero => intro woken h; exact ⟨[], rfl⟩
  | succ fuel ih =>
    intro woken h
    rw [WookieMod.Wookie.poll_while_woken_aux]
    rcases hp : WookieMod.Wookie.poll t h with ⟨h2, r⟩
    have hsig : (h2.wakey, h2.rc) = WookieMod.applyOps (h.wakey, h.rc) (t.poll h.future).1 := by
      have hv := WookieMod.poll_signal_heap t h
      rw [hp] at hv
      exact hv
    cases r with
    | Ready v => exact ⟨(t.poll h.future).1, hsig⟩
    | Pending =>
      by_cases hc : h2.wakey.woken = woken
      · simp only [hc, if_pos rfl]
        exact ⟨(t.poll h.future).1, hsig⟩
      · simp only [if_neg hc]
        obtain ⟨ops2, hops2⟩ := ih h2.wakey.woken h2
        refine ⟨(t.poll h.future).1 ++ ops2, ?_⟩
        rw [WookieMod.applyOps_append_heap, ← hsig, hops2]

/-- the poll-while-woken loop only ever moves the stack-variant signal by some
sequence of vtable calls performed by the future. -/
theorem LocalMod.pww_aux_signal_stack {σ α : Type} (t : Future σ α) : ∀ (fuel woken : Nat) (h : LocalMod.Local σ),
    ∃ ops, (LocalMod.Local.poll_while_woken_aux t fuel woken h).1.wakey
          = LocalMod.applyOps h.wakey ops := by
  intro fuel
  induction fuel with
  | zero => intro woken h; exact ⟨[], rfl⟩
  | succ fuel ih =>
    intro woken h
    rw [LocalMod.Local.poll_while_woken_aux]
    rcases hp : LocalMod.Local.poll t h with ⟨h2, r⟩
    have hsig : h2.wakey = LocalMod.applyOps h.wakey (t.poll h.future).1 := by
      have hv := LocalMod.poll_signal_stack t h
      rw [hp] at hv
      exact hv
    cases r with
    | Ready v => exact ⟨(t.poll h.future).1, hsig⟩
    | Pending =>
      by_cases hc : h2.wakey.woken = woken
      · simp only [hc, if_pos rfl]
        exact ⟨(t.poll h.future).1, hsig⟩
      · simp only [if_neg hc]
        obtain ⟨ops2, hops2⟩ := ih h2.wakey.woken h2
        refine ⟨(t.poll h.future).1 ++ ops2, ?_⟩
        rw [LocalMod.applyOps_append_stack, ← hsig, hops2]

/-- any sequence of stepping operations moves the heap-variant signal by some
sequence of vtable calls performed by the future. -/
theorem WookieMod.run_signal_heap {σ α : Type} (t : Future σ α) : ∀ (ops : List HarnessOp) (h : WookieMod.Wookie σ),
    ∃ wops, ((WookieMod.Wookie.run t ops h).2.wakey, (WookieMod.Wookie.run t ops h).2.rc)
          = WookieMod.applyOps (h.wakey, h.rc) wops := by
  intro ops
  induction ops with
  | nil => intro h; exact ⟨[], rfl⟩
  | cons op ops ih =>
    intro h
    cases op with
    | poll =>
      rw [WookieMod.Wookie.run]
      obtain ⟨w2, hw2⟩ := ih (WookieMod.Wookie.poll t h).1
      refine ⟨(t.poll h.future).1 ++ w2, ?_⟩
      rw [WookieMod.applyOps_append_heap, ← WookieMod.poll_signal_heap t h]
      exact hw2
    | poll_while_woken fuel =>
      rw [WookieMod.Wookie.run]
      obtain ⟨w1, hw1⟩ := WookieMod.pww_aux_signal_heap t fuel (WookieMod.Wookie.woken h) h
      obtain ⟨w2, hw2⟩ := ih (WookieMod.Wookie.poll_while_woken t fuel h).1
      refine ⟨w1 ++ w2, ?_⟩
      rw [WookieMod.applyOps_append_heap, ← hw1]
      exact hw2

/-- any sequence of stepping operations moves the stack-variant signal by some
sequence of vtable calls performed by the future. -/
theorem LocalMod.run_signal_stack {σ α : Type} (t : Future σ α) : ∀ (ops : List HarnessOp) (h : LocalMod.Local σ),
    ∃ wops, (LocalMod.Local.run t ops h).2.wakey = LocalMod.applyOps h.wakey wops := by
  intro ops
  induction ops with
  | nil => intro h; exact ⟨[], rfl⟩
  | cons op ops ih =>
    intro h
    cases op with
    | poll =>
      rw [LocalMod.Local.run]
      obtain ⟨w2, hw2⟩ := ih (LocalMod.Local.poll t h).1
      refine ⟨(t.poll h.future).1 ++ w2, ?_⟩
      rw [LocalMod.applyOps_append_stack, ← LocalMod.poll_signal_stack t h]
      exact hw2
    | poll_while_woken fuel =>
      rw [LocalMod.Local.run]
      obtain ⟨w1, hw1⟩ := LocalMod.pww_aux_signal_stack t fuel (LocalMod.Local.woken h) h
      obtain ⟨w2, hw2⟩ := ih (LocalMod.Local.poll_while_woken t fuel h).1
      refine ⟨w1 ++ w2, ?_⟩
      rw [LocalMod.applyOps_append_stack, ← hw1]
      exact hw2

/-- one unfolding of the heap-variant loop: poll once; Ready is returned; a
Pending with unmoved woken count returns Pending; otherwise the loop restarts
having recorded the new woken count, which is a fresh poll_while_woken. -/
theorem WookieMod.pww_step_heap {σ α : Type} (t : Future σ α) (fuel : Nat) (h : WookieMod.Wookie σ) :
    WookieMod.Wookie.poll_while_woken t (fuel + 1) h =
      match WookieMod.Wookie.poll t h with
      | (h2, Poll.Ready r) => (h2, some (Poll.Ready r))
      | (h2, Poll.Pending) =>
        if h2.wakey.woken = h.wakey.woken then (h2, some Poll.Pending)
        else WookieMod.Wookie.poll_while_woken t fuel h2 := by
  rw [WookieMod.Wookie.poll_while_woken, WookieMod.Wookie.poll_while_woken_aux]
  rcases hp : WookieMod.Wookie.poll t h with ⟨h2, r⟩
  cases r with
  | Ready v => rfl
  | Pending => rfl

/-- one unfolding of the stack-variant loop, of the same shape. -/
theorem LocalMod.pww_step_stack {σ α : Type} (t : Future σ α) (fuel : Nat) (h : LocalMod.Local σ) :
    LocalMod.Local.poll_while_woken t (fuel + 1) h =
      match LocalMod.Local.poll t h with
      | (h2, Poll.Ready r) => (h2, some (Poll.Ready r))
      | (h2, Poll.Pending) =>
        if h2.wakey.woken = h.wakey.woken then (h2, some Poll.Pending)
        else LocalMod.Local.poll_while_woken t fuel h2 := by
  rw [LocalMod.Local.poll_while_woken, LocalMod.Local.poll_while_woken_aux]
  rcases hp : LocalMod.Local.poll t h with ⟨h2, r⟩
  cases r with
  | Ready v => rfl
  | Pending => rfl

/-- one unfolding of the lib.rs loop, of the same shape (the recorded count is
re-read from the counter at the top of each iteration). -/
theorem LibW.pww_step_lib {σ α : Type} (t : Future σ α) (fuel : Nat) (x : LibW.Wookie) (s : σ) :
    LibW.Wookie.poll_while_woken t (fuel + 1) x s =
      match LibW.Wookie.poll t x s with
      | (xs, Poll.Ready r) => (xs, some (Poll.Ready r))
      | (xs, Poll.Pending) =>
        if xs.1.counter = x.counter then (xs, some Poll.Pending)
        else LibW.Wookie.poll_while_woken t fuel xs.1 xs.2 := by
  rw [LibW.Wookie.poll_while_woken]

/-- the heap-variant loop never exits on the future that wakes itself on every
poll: any amount of fuel is consumed. -/
theorem WookieMod.selfWaking_aux_none : ∀ (fuel : Nat) (w : WookieMod.Wakey) (rc n : Nat),
    w.woken < U16MOD →
    (WookieMod.Wookie.poll_while_woken_aux selfWaking fuel w.woken ⟨w, rc, n⟩).2 = none := by
  intro fuel
  induction fuel with
  | zero => intro w rc n _; rfl
  | succ fuel ih =>
    intro w rc n hw
    rw [WookieMod.Wookie.poll_while_woken_aux]
    have hp : WookieMod.Wookie.poll selfWaking ⟨w, rc, n⟩
        = (⟨w.bump_woken, rc, n + 1⟩, Poll.Pending) := rfl
    rw [hp]
    have hne : (w.bump_woken).woken ≠ w.woken := by
      simp only [WookieMod.Wakey.bump_woken]
      simp only [U16MOD] at hw ⊢
      omega
    simp only [if_neg hne]
    have hlt : (w.bump_woken).woken < U16MOD := by
      simp only [WookieMod.Wakey.bump_woken, U16MOD]
      omega
    exact ih w.bump_woken rc (n + 1) hlt

/-- the lib.rs loop never exits on the future that wakes itself on every poll. -/
theorem LibW.selfWaking_none : ∀ (fuel c s : Nat), c < U32MOD →
    (LibW.Wookie.poll_while_woken selfWaking fuel ⟨c⟩ s).2 = none := by
  intro fuel
  induction fuel with
  | zero => intro c s _; rfl
  | succ fuel ih =>
    intro c s hc
    rw [LibW.Wookie.poll_while_woken]
    have hp : LibW.Wookie.poll selfWaking ⟨c⟩ s = ((⟨(c + 1) % U32MOD⟩, s + 1), Poll.Pending) := rfl
    rw [hp]
    have hne : (c + 1) % U32MOD ≠ c := by
      simp only [U32MOD] at hc ⊢
      omega
    simp only [if_neg hne]
    have hlt : (c + 1) % U32MOD < U32MOD := by
      simp only [U32MOD]
      omega
    exact ih ((c + 1) % U32MOD) (s + 1) hlt

/-- with fuel N+1, the loop runs the wake-N-times future to completion: it
returns Ready true after exactly N+1 polls (the state's second component
counts the polls the future received). -/
theorem WookieMod.wakesThenReady_aux_ready : ∀ (N : Nat) (w : WookieMod.Wakey) (rc p : Nat),
    w.woken < U16MOD →
    (WookieMod.Wookie.poll_while_woken_aux wakesThenReady (N + 1) w.woken ⟨w, rc, (N, p)⟩).2
        = some (Poll.Ready true) ∧
    (WookieMod.Wookie.poll_while_woken_aux wakesThenReady (N + 1) w.woken ⟨w, rc, (N, p)⟩).1.future
        = (0, p + (N + 1)) := by
  intro N
  induction N with
  | zero =>
    intro w rc p _
    constructor <;> rfl
  | succ N ih =>
    intro w rc p hw
    rw [WookieMod.Wookie.poll_while_woken_aux]
    have hp : WookieMod.Wookie.poll wakesThenReady ⟨w, rc, (N + 1, p)⟩
        = (⟨w.bump_woken, rc, (N, p + 1)⟩, Poll.Pending) := by
      simp [WookieMod.Wookie.poll, wakesThenReady, WookieMod.applyOps, WookieMod.applyOp,
        WookieMod.do_wake_by_ref]
    rw [hp]
    have hne : (w.bump_woken).woken ≠ w.woken := by
      simp only [WookieMod.Wakey.bump_woken]
      simp only [U16MOD] at hw ⊢
      omega
    simp only [if_neg hne]
    have hlt : (w.bump_woken).woken < U16MOD := by
      simp only [WookieMod.Wakey.bump_woken, U16MOD]
      omega
    have := ih w.bump_woken rc (p + 1) hlt
    refine ⟨this.1, ?_⟩
    rw [this.2]
    ext <;> omega

/-- with fuel only N, the loop on the wake-N-times future runs out of fuel:
it needs strictly more than N polls. -/
theorem WookieMod.wakesThenReady_aux_fuel : ∀ (N : Nat) (w : WookieMod.Wakey) (rc p : Nat),
    w.woken < U16MOD →
    (WookieMod.Wookie.poll_while_woken_aux wakesThenReady N w.woken ⟨w, rc, (N, p)⟩).2 = none := by
  intro N
  induction N with
  | zero => intro w rc p _; rfl
  | succ N ih =>
    intro w rc p hw
    rw [WookieMod.Wookie.poll_while_woken_aux]
    have hp : WookieMod.Wookie.poll wakesThenReady ⟨w, rc, (N + 1, p)⟩
        = (⟨w.bump_woken, rc, (N, p + 1)⟩, Poll.Pending) := by
      simp [WookieMod.Wookie.poll, wakesThenReady, WookieMod.applyOps, WookieMod.applyOp,
        WookieMod.do_wake_by_ref]
    rw [hp]
    have hne : (w.bump_woken).woken ≠ w.woken := by
      simp only [WookieMod.Wakey.bump_woken]
      simp only [U16MOD] at hw ⊢
      omega
    simp only [if_neg hne]
    have hlt : (w.bump_woken).woken < U16MOD := by
      simp only [WookieMod.Wakey.bump_woken, U16MOD]
      omega
    exact ih w.bump_woken rc (p + 1) hlt

/-- the loop on the future that never wakes and never completes returns
Pending after exactly one poll, for any positive fuel. -/
theorem WookieMod.neverReady_pww (fuel s0 : Nat) :
    WookieMod.Wookie.poll_while_woken neverReady (fuel + 1) (WookieMod.Wookie.new s0)
      = (⟨⟨0, 0, 0⟩, 1, s0 + 1⟩, some Poll.Pending) := rfl

/-- C4: in both instrumented variants the wake vtable call increments the
woken counter by one (mod 2^16), then behaves exactly as drop — it increments
the dropped counter by one and, in the heap variant, releases the handle's
share of the signal (Arc strong count -1) — and leaves the cloned counter
unchanged. -/
theorem claim_C4 :
    (∀ (w : WookieMod.Wakey) (rc : Nat),
      (WookieMod.do_wake w rc).1.woken = (w.woken + 1) % U16MOD ∧
      (WookieMod.do_wake w rc).1.dropped = (w.dropped + 1) % U16MOD ∧
      (WookieMod.do_wake w rc).1.cloned = w.cloned ∧
      (WookieMod.do_wake w rc).2 = rc - 1 ∧
      WookieMod.do_wake w rc
        = WookieMod.do_drop (WookieMod.do_wake_by_ref w rc).1 (WookieMod.do_wake_by_ref w rc).2) ∧
    (∀ (w : LocalMod.Wakey),
      (LocalMod.do_wake w).woken = (w.woken + 1) % U16MOD ∧
      (LocalMod.do_wake w).dropped = (w.dropped + 1) % U16MOD ∧
      (LocalMod.do_wake w).cloned = w.cloned ∧
      LocalMod.do_wake w = LocalMod.do_drop (LocalMod.do_wake_by_ref w)) := by
  exact ⟨fun w rc => ⟨rfl, rfl, rfl, rfl, rfl⟩, fun w => ⟨rfl, rfl, rfl, rfl⟩⟩

/-- C5: in both instrumented variants the wake-by-ref vtable call increments
the woken counter by one (mod 2^16) and leaves the cloned and dropped
counters unchanged; the handle stays valid — in the heap variant the Arc
strong count is untouched, so the handle's share of the signal remains to be
released by a later drop. -/
theorem claim_C5 :
    (∀ (w : WookieMod.Wakey) (rc : Nat),
      (WookieMod.do_wake_by_ref w rc).1.woken = (w.woken + 1) % U16MOD ∧
      (WookieMod.do_wake_by_ref w rc).1.cloned = w.cloned ∧
      (WookieMod.do_wake_by_ref w rc).1.dropped = w.dropped ∧
      (WookieMod.do_wake_by_ref w rc).2 = rc) ∧
    (∀ (w : LocalMod.Wakey),
      (LocalMod.do_wake_by_ref w).woken = (w.woken + 1) % U16MOD ∧
      (LocalMod.do_wake_by_ref w).cloned = w.cloned ∧
      (LocalMod.do_wake_by_ref w).dropped = w.dropped) := by
  exact ⟨fun w rc => ⟨rfl, rfl, rfl, rfl⟩, fun w => ⟨rfl, rfl, rfl⟩⟩

/-- C6: in both instrumented variants the clone vtable call increments the
cloned counter by one (mod 2^16), leaves dropped and woken unchanged, and
returns a new handle on the same signal (heap variant: Arc strong count +1);
and after one poll of a future that clones its waker once, stores the clone
and stays pending, the fresh harness shows cloned = 1, dropped = 0, live = 1. -/
theorem claim_C6 :
    (∀ (w : WookieMod.Wakey) (rc : Nat),
      (WookieMod.do_clone w rc).1.cloned = (w.cloned + 1) % U16MOD ∧
      (WookieMod.do_clone w rc).1.dropped = w.dropped ∧
      (WookieMod.do_clone w rc).1.woken = w.woken ∧
      (WookieMod.do_clone w rc).2 = rc + 1) ∧
    (∀ (w : LocalMod.Wakey),
      (LocalMod.do_clone w).cloned = (w.cloned + 1) % U16MOD ∧
      (LocalMod.do_clone w).dropped = w.dropped ∧
      (LocalMod.do_clone w).woken = w.woken) ∧
    (WookieMod.Wookie.cloned (WookieMod.Wookie.poll clonesOnce (WookieMod.Wookie.new 0)).1 = 1 ∧
     WookieMod.Wookie.dropped (WookieMod.Wookie.poll clonesOnce (WookieMod.Wookie.new 0)).1 = 0 ∧
     WookieMod.Wookie.live (WookieMod.Wookie.poll clonesOnce (WookieMod.Wookie.new 0)).1 = 1 ∧
     (WookieMod.Wookie.poll clonesOnce (WookieMod.Wookie.new 0)).1.rc = 2) ∧
    (LocalMod.Local.cloned (LocalMod.Local.poll clonesOnce (LocalMod.Local.new 0)).1 = 1 ∧
     LocalMod.Local.dropped (LocalMod.Local.poll clonesOnce (LocalMod.Local.new 0)).1 = 0 ∧
     LocalMod.Local.live (LocalMod.Local.poll clonesOnce (LocalMod.Local.new 0)).1 = 1) := by
  refine ⟨fun w rc => ⟨rfl, rfl, rfl, rfl⟩, fun w => ⟨rfl, rfl, rfl⟩, ⟨?_, ?_, ?_, ?_⟩, ⟨?_, ?_, ?_⟩⟩
  all_goals decide

/-- C7: live() is the u16 wrapping subtraction cloned - dropped: when at most
as many handles were dropped as cloned it is the exact difference, but when a
task drops more handles than it cloned the value silently wraps around modulo
2^16 instead of being guarded or reported as an error — concretely, one poll
of a future that drops a handle it never cloned leaves live() = 65535. -/
theorem claim_C7 :
    (∀ (σ : Type) (h : WookieMod.Wookie σ),
      h.wakey.cloned < U16MOD → h.wakey.dropped < U16MOD →
      (h.wakey.dropped ≤ h.wakey.cloned →
        WookieMod.Wookie.live h = h.wakey.cloned - h.wakey.dropped) ∧
      (h.wakey.cloned < h.wakey.dropped →
        WookieMod.Wookie.live h = U16MOD - (h.wakey.dropped - h.wakey.cloned))) ∧
    (∀ (σ : Type) (h : LocalMod.Local σ),
      h.wakey.cloned < U16MOD → h.wakey.dropped < U16MOD →
      (h.wakey.dropped ≤ h.wakey.cloned →
        LocalMod.Local.live h = h.wakey.cloned - h.wakey.dropped) ∧
      (h.wakey.cloned < h.wakey.dropped →
        LocalMod.Local.live h = U16MOD - (h.wakey.dropped - h.wakey.cloned))) ∧
    WookieMod.Wookie.live (WookieMod.Wookie.poll dropsUncloned (WookieMod.Wookie.new 0)).1 = 65535 ∧
    LocalMod.Local.live (LocalMod.Local.poll dropsUncloned (LocalMod.Local.new 0)).1 = 65535 := by
  refine ⟨?_, ?_, by decide, by decide⟩
  · intro σ h hc hd
    unfold WookieMod.Wookie.live
    simp only [U16MOD] at hc hd ⊢
    omega
  · intro σ h hc hd
    unfold LocalMod.Local.live
    simp only [U16MOD] at hc hd ⊢
    omega

/-- C7 witness: at cloned = 5, dropped = 2 the live value is the exact
difference 3. -/
theorem claim_C7_witness :
    WookieMod.Wookie.live (⟨⟨5, 2, 0⟩, 1, 0⟩ : WookieMod.Wookie Nat) = 3 :=
  (claim_C7.1 Nat ⟨⟨5, 2, 0⟩, 1, 0⟩ (by decide) (by decide)).1 (by decide)

/-- C9: a future that completes immediately without touching its waker makes
poll return Ready on the first call of a fresh harness, with all three
counters still at the zero they were created with, in both instrumented
variants. -/
theorem claim_C9 :
    (∀ (σ α : Type) (t : Future σ α) (s0 s1 : σ) (v : α),
      t.poll s0 = ([], s1, Poll.Ready v) →
      WookieMod.Wookie.poll t (WookieMod.Wookie.new s0) = (⟨⟨0, 0, 0⟩, 1, s1⟩, Poll.Ready v)) ∧
    (∀ (σ α : Type) (t : Future σ α) (s0 s1 : σ) (v : α),
      t.poll s0 = ([], s1, Poll.Ready v) →
      LocalMod.Local.poll t (LocalMod.Local.new s0) = (⟨⟨0, 0, 0⟩, s1⟩, Poll.Ready v)) ∧
    (∀ (σ : Type) (s0 : σ),
      WookieMod.Wookie.stats (WookieMod.Wookie.new s0) = ⟨0, 0, 0⟩ ∧
      LocalMod.Local.stats (LocalMod.Local.new s0) = ⟨0, 0, 0⟩) := by
  refine ⟨?_, ?_, fun σ s0 => ⟨rfl, rfl⟩⟩
  · intro σ α t s0 s1 v ht
    simp [WookieMod.Wookie.poll, WookieMod.Wookie.new, ht, WookieMod.applyOps]
  · intro σ α t s0 s1 v ht
    simp [LocalMod.Local.poll, LocalMod.Local.new, ht, LocalMod.applyOps]

/-- C9 witness: the immediately-ready future on a fresh heap harness returns
Ready true and the counters read 0, 0, 0. -/
theorem claim_C9_witness :
    WookieMod.Wookie.poll readyNow (WookieMod.Wookie.new 0) = (⟨⟨0, 0, 0⟩, 1, 1⟩, Poll.Ready true) :=
  claim_C9.1 Nat Bool readyNow 0 1 true rfl

/-- C10: poll itself contributes no counter traffic in either instrumented
variant: the signal after a poll is exactly the fold of the vtable calls the
future performed (the fresh handle is built without a clone bump and its
release is suppressed), so a future that performs no calls leaves the signal
untouched. -/
theorem claim_C10 :
    (∀ (σ α : Type) (t : Future σ α) (h : WookieMod.Wookie σ),
      ((WookieMod.Wookie.poll t h).1.wakey, (WookieMod.Wookie.poll t h).1.rc)
        = WookieMod.applyOps (h.wakey, h.rc) (t.poll h.future).1) ∧
    (∀ (σ α : Type) (t : Future σ α) (h : LocalMod.Local σ),
      (LocalMod.Local.poll t h).1.wakey = LocalMod.applyOps h.wakey (t.poll h.future).1) ∧
    (∀ (h : WookieMod.Wookie Nat),
      (WookieMod.Wookie.poll neverReady h).1.wakey = h.wakey ∧
      (WookieMod.Wookie.poll neverReady h).1.rc = h.rc) ∧
    (∀ (h : LocalMod.Local Nat),
      (LocalMod.Local.poll neverReady h).1.wakey = h.wakey) := by
  refine ⟨fun σ α t h => WookieMod.poll_signal_heap t h,
         fun σ α t h => LocalMod.poll_signal_stack t h,
         fun h => ⟨rfl, rfl⟩,
         fun h => rfl⟩

/-- C1: for every future and every instrumented harness (Wookie of wookie.rs,
Local of local.rs, and the counter executor of lib.rs), poll_while_woken
records the current woken count and polls once; a Ready result is returned;
a Pending with the woken count unchanged since the record returns Pending;
a changed count updates the record and repeats the poll — and the loop has no
iteration bound: a future that wakes itself on every poll and never completes
exhausts every amount of fuel. -/
theorem claim_C1 :
    (∀ (σ α : Type) (t : Future σ α) (fuel : Nat) (h : WookieMod.Wookie σ),
      WookieMod.Wookie.poll_while_woken t (fuel + 1) h =
        match WookieMod.Wookie.poll t h with
        | (h2, Poll.Ready r) => (h2, some (Poll.Ready r))
        | (h2, Poll.Pending) =>
          if h2.wakey.woken = h.wakey.woken then (h2, some Poll.Pending)
          else WookieMod.Wookie.poll_while_woken t fuel h2) ∧
    (∀ (σ α : Type) (t : Future σ α) (fuel : Nat) (h : LocalMod.Local σ),
      LocalMod.Local.poll_while_woken t (fuel + 1) h =
        match LocalMod.Local.poll t h with
        | (h2, Poll.Ready r) => (h2, some (Poll.Ready r))
        | (h2, Poll.Pending) =>
          if h2.wakey.woken = h.wakey.woken then (h2, some Poll.Pending)
          else LocalMod.Local.poll_while_woken t fuel h2) ∧
    (∀ (σ α : Type) (t : Future σ α) (fuel : Nat) (x : LibW.Wookie) (s : σ),
      LibW.Wookie.poll_while_woken t (fuel + 1) x s =
        match LibW.Wookie.poll t x s with
        | (xs, Poll.Ready r) => (xs, some (Poll.Ready r))
        | (xs, Poll.Pending) =>
          if xs.1.counter = x.counter then (xs, some Poll.Pending)
          else LibW.Wookie.poll_while_woken t fuel xs.1 xs.2) ∧
    (∀ fuel : Nat,
      (WookieMod.Wookie.poll_while_woken selfWaking fuel (WookieMod.Wookie.new 0)).2 = none) ∧
    (∀ fuel : Nat,
      (LocalMod.Local.poll_while_woken selfWaking fuel (LocalMod.Local.new 0)).2 = none) ∧
    (∀ (fuel s0 : Nat),
      (LibW.Wookie.poll_while_woken selfWaking fuel LibW.Wookie.new s0).2 = none) := by
  refine ⟨fun σ α t fuel h => WookieMod.pww_step_heap t fuel h,
         fun σ α t fuel h => LocalMod.pww_step_stack t fuel h,
         fun σ α t fuel x s => LibW.pww_step_lib t fuel x s, ?_, ?_, ?_⟩
  · intro fuel
    exact WookieMod.selfWaking_aux_none fuel ⟨0, 0, 0⟩ 1 0 (by norm_num [U16MOD])
  · intro fuel
    have hsim := pww_toLocal selfWaking fuel (WookieMod.Wookie.new 0)
    have hloc : LocalMod.Local.new (0 : Nat) = (WookieMod.Wookie.new 0).toLocal := rfl
    rw [hloc, hsim]
    exact WookieMod.selfWaking_aux_none fuel ⟨0, 0, 0⟩ 1 0 (by norm_num [U16MOD])
  · intro fuel s0
    exact LibW.selfWaking_none fuel 0 s0 (by norm_num [U32MOD])

/-- C2: the heap-backed and stack-only harnesses, driven by the same future
through the same sequence of stepping operations, report identical sequences
of poll results and counter snapshots, and end with identical counters; they
differ only in ownership bookkeeping. -/
theorem claim_C2 : ∀ (σ α : Type) (t : Future σ α) (ops : List HarnessOp) (s0 : σ),
    (WookieMod.Wookie.run t ops (WookieMod.Wookie.new s0)).1
      = (LocalMod.Local.run t ops (LocalMod.Local.new s0)).1 ∧
    LocalMod.Local.stats (LocalMod.Local.run t ops (LocalMod.Local.new s0)).2
      = WookieMod.Wookie.stats (WookieMod.Wookie.run t ops (WookieMod.Wookie.new s0)).2 := by
  intro σ α t ops s0
  have hloc : LocalMod.Local.new s0 = (WookieMod.Wookie.new s0).toLocal := rfl
  have hsim := run_toLocal t ops (WookieMod.Wookie.new s0)
  rw [hloc, hsim]
  exact ⟨rfl, stats_toLocal _⟩

/-- C3: on a future that wakes itself exactly N times before completing, the
loop performs exactly N+1 polls (fuel N is insufficient, fuel N+1 returns the
final Ready and the future's poll count is N+1); on a future that never wakes
and never completes, the loop returns Pending after exactly one poll — in
both instrumented variants. -/
theorem claim_C3 :
    (∀ N : Nat,
      (WookieMod.Wookie.poll_while_woken wakesThenReady (N + 1) (WookieMod.Wookie.new (N, 0))).2
        = some (Poll.Ready true) ∧
      (WookieMod.Wookie.poll_while_woken wakesThenReady (N + 1) (WookieMod.Wookie.new (N, 0))).1.future
        = (0, N + 1) ∧
      (WookieMod.Wookie.poll_while_woken wakesThenReady N (WookieMod.Wookie.new (N, 0))).2
        = none) ∧
    (∀ N : Nat,
      (LocalMod.Local.poll_while_woken wakesThenReady (N + 1) (LocalMod.Local.new (N, 0))).2
        = some (Poll.Ready true) ∧
      (LocalMod.Local.poll_while_woken wakesThenReady (N + 1) (LocalMod.Local.new (N, 0))).1.future
        = (0, N + 1) ∧
      (LocalMod.Local.poll_while_woken wakesThenReady N (LocalMod.Local.new (N, 0))).2
        = none) ∧
    (∀ (fuel s0 : Nat),
      WookieMod.Wookie.poll_while_woken neverReady (fuel + 1) (WookieMod.Wookie.new s0)
        = (⟨⟨0, 0, 0⟩, 1, s0 + 1⟩, some Poll.Pending)) ∧
    (∀ (fuel s0 : Nat),
      LocalMod.Local.poll_while_woken neverReady (fuel + 1) (LocalMod.Local.new s0)
        = (⟨⟨0, 0, 0⟩, s0 + 1⟩, some Poll.Pending)) := by
  have hwk : ∀ N : Nat,
      (WookieMod.Wookie.poll_while_woken wakesThenReady (N + 1) (WookieMod.Wookie.new (N, 0))).2
        = some (Poll.Ready true) ∧
      (WookieMod.Wookie.poll_while_woken wakesThenReady (N + 1) (WookieMod.Wookie.new (N, 0))).1.future
        = (0, N + 1) ∧
      (WookieMod.Wookie.poll_while_woken wakesThenReady N (WookieMod.Wookie.new (N, 0))).2
        = none := by
    intro N
    have h1 := WookieMod.wakesThenReady_aux_ready N ⟨0, 0, 0⟩ 1 0 (by norm_num [U16MOD])
    have h2 := WookieMod.wakesThenReady_aux_fuel N ⟨0, 0, 0⟩ 1 0 (by norm_num [U16MOD])
    refine ⟨h1.1, ?_, h2⟩
    have h3 := h1.2
    rw [Nat.zero_add] at h3
    exact h3
  refine ⟨hwk, ?_, fun fuel s0 => WookieMod.neverReady_pww fuel s0, fun fuel s0 => rfl⟩
  intro N
  have hloc : LocalMod.Local.new ((N, 0) : Nat × Nat) = (WookieMod.Wookie.new (N, 0)).toLocal := rfl
  have hs1 := pww_toLocal wakesThenReady (N + 1) (WookieMod.Wookie.new (N, 0))
  have hs2 := pww_toLocal wakesThenReady N (WookieMod.Wookie.new (N, 0))
  rw [hloc, hs1, hs2]
  obtain ⟨ha, hb, hc⟩ := hwk N
  exact ⟨ha, hb, hc⟩

/-- C8: the three counters are cumulative and only ever stepped forward: any
sequence of vtable calls adds exactly its number of clone / drop-like /
wake-like calls to the respective counter, modulo 2^16, and any sequence of
harness stepping operations moves the signal exactly by some such sequence of
vtable calls performed by the future (reads never change it) — in both
instrumented variants. -/
theorem claim_C8 :
    (∀ (ops : List WakerOp) (w : LocalMod.Wakey),
      w.cloned < U16MOD → w.dropped < U16MOD → w.woken < U16MOD →
      (LocalMod.applyOps w ops).cloned = (w.cloned + countOps isCloneOp ops) % U16MOD ∧
      (LocalMod.applyOps w ops).dropped = (w.dropped + countOps bumpsDroppedOp ops) % U16MOD ∧
      (LocalMod.applyOps w ops).woken = (w.woken + countOps bumpsWokenOp ops) % U16MOD) ∧
    (∀ (ops : List WakerOp) (w : WookieMod.Wakey) (rc : Nat),
      w.cloned < U16MOD → w.dropped < U16MOD → w.woken < U16MOD →
      (WookieMod.applyOps (w, rc) ops).1.cloned = (w.cloned + countOps isCloneOp ops) % U16MOD ∧
      (WookieMod.applyOps (w, rc) ops).1.dropped = (w.dropped + countOps bumpsDroppedOp ops) % U16MOD ∧
      (WookieMod.applyOps (w, rc) ops).1.woken = (w.woken + countOps bumpsWokenOp ops) % U16MOD) ∧
    (∀ (σ α : Type) (t : Future σ α) (ops : List HarnessOp) (h : WookieMod.Wookie σ),
      ∃ wops, ((WookieMod.Wookie.run t ops h).2.wakey, (WookieMod.Wookie.run t ops h).2.rc)
            = WookieMod.applyOps (h.wakey, h.rc) wops) ∧
    (∀ (σ α : Type) (t : Future σ α) (ops : List HarnessOp) (h : LocalMod.Local σ),
      ∃ wops, (LocalMod.Local.run t ops h).2.wakey = LocalMod.applyOps h.wakey wops) := by
  exact ⟨fun ops w => LocalMod.applyOps_count_stack ops w,
        fun ops w rc => WookieMod.applyOps_count_heap ops w rc,
        fun σ α t ops h => WookieMod.run_signal_heap t ops h,
        fun σ α t ops h => LocalMod.run_signal_stack t ops h⟩

/-- C8 witness: from counters (5, 3, 2), the calls clone then wake leave
cloned = 6, dropped = 4, woken = 3. -/
theorem claim_C8_witness :
    (LocalMod.applyOps ⟨5, 3, 2⟩ [WakerOp.clone, WakerOp.wake]).cloned
      = (5 + countOps isCloneOp [WakerOp.clone, WakerOp.wake]) % U16MOD ∧
    (LocalMod.applyOps ⟨5, 3, 2⟩ [WakerOp.clone, WakerOp.wake]).dropped
      = (3 + countOps bumpsDroppedOp [WakerOp.clone, WakerOp.wake]) % U16MOD ∧
    (LocalMod.applyOps ⟨5, 3, 2⟩ [WakerOp.clone, WakerOp.wake]).woken
      = (2 + countOps bumpsWokenOp [WakerOp.clone, WakerOp.wake]) % U16MOD :=
  claim_C8.1 [WakerOp.clone, WakerOp.wake] ⟨5, 3, 2⟩ (by norm_num [U16MOD])
    (by norm_num [U16MOD]) (by norm_num [U16MOD])

